import Mathlib

/-!
# Verification of `export-confluence.py`

A shallow embedding of the batch Confluence-page PDF exporter
(`src/export-confluence.py`) together with proofs about the claims of its
specification.

Modelling conventions:
* Python `str` values are modelled as `List Char` (named `Str` below);
  `str s` turns a Lean string literal into that representation.
* HTTP traffic is modelled by data passed in: each page carries a
  `PageEnv` holding the response of its trigger request, the sequence of
  task-progress responses (one per poll), the result-fetch response and
  the download response.  Request side effects are not modelled beyond
  the data they return; the request *built* by the downloader is modelled
  explicitly (`download_request`) for the credential-independence claim.
* HTML parsing by BeautifulSoup is modelled by the extracted value: the
  `content` attribute of the `<meta name="ajs-taskId">` tag of the trigger
  response is `PageEnv.triggerTaskId` (`none` when the tag or the
  attribute is absent).
* `urllib.parse.urlparse` is external; the per-page model takes the URL
  and its parsed path component as separate inputs.
* `urllib.parse.unquote`, Python's Unicode `str.isalnum` and
  `requests.utils.requote_uri` are external library functions taking the
  string alone; they are parameters of the model (`Config.unq`,
  `Config.isalnum`, `Config.requote`).
* exceptions (`raise` / `try` / `except`) are modelled by `Option` /
  `Except` values and explicit branching, as in the source's own
  control flow.
-/

/-- Python strings are modelled as lists of characters. -/
abbrev Str := List Char

/-- A Lean string literal as a `Str`. -/
def str (s : String) : Str := s.toList

/-- Decimal rendering of a natural number as a `Str` (Python f-string `{n}`). -/
def natStr (n : Nat) : Str := (toString n).toList

/-- Python `s.split(sep)` for a non-empty separator `sep`, on `List Char`:
splits at every non-overlapping occurrence of `sep`, scanning left to
right, keeping empty parts.  (Python raises on an empty separator; the
`sep ≠ []` guard makes the function total, and it is only ever used with
non-empty separators.  `rest.drop (sep.length - 1)` is
`(c :: rest).drop sep.length` for non-empty `sep`, written so that the
recursion visibly shrinks the input.) -/
def pySplit (sep : Str) : Str → List Str
  | [] => [[]]
  | c :: rest =>
    if sep ≠ [] ∧ sep.isPrefixOf (c :: rest) then
      [] :: pySplit sep (rest.drop (sep.length - 1))
    else
      match pySplit sep rest with
      | [] => [[c]]
      | x :: xs => (c :: x) :: xs
termination_by s => s.length
decreasing_by
  all_goals simp only [List.length_cons, List.length_drop]
  all_goals omega

/-- Python `s.strip(chars)` generalised: drop the characters satisfying `p`
from both ends (`str.strip()` is this with `Char.isWhitespace`). -/
def pyStrip (p : Char → Bool) (s : Str) : Str :=
  ((s.dropWhile p).reverse.dropWhile p).reverse

/-- The separator `"/pages/"` used to locate the page id in a URL path. -/
def pagesSep : Str := str "/pages/"

/-- `parsed.path.split("/pages/")[1].split("/")[0]` with the `IndexError`
(fewer than two parts) reported as `none` — the source catches it and
records the `"Missing pageId"` outcome. -/
def extract_page_id (path : Str) : Option Str :=
  match pySplit pagesSep path with
  | [] => none
  | [_] => none
  | _ :: second :: _ => some ((pySplit ['/'] second).headD [])

/-- `sanitize_filename`: percent-decode (`unq`, modelling
`urllib.parse.unquote`), then keep the characters that are alphanumeric
(`al`, modelling Python's `str.isalnum`) or in `"_-"`, replacing every
other character by `'_'`. -/
def sanitize_filename (unq : Str → Str) (al : Char → Bool) (name : Str) : Str :=
  (unq name).map (fun c => if al c || c = '_' || c = '-' then c else '_')

/-- One JSON body returned by the task-progress endpoint, as the fields the
source reads: `data.get("progress", 0)`, `data.get("state", "")`,
`data.get("result")`, plus the HTTP status of the response. -/
structure ProgressResp where
  status : Nat
  progress : Option Int
  state : Option Str
  result : Option Str

/-- `data.get("progress", 0)`: a missing `progress` field defaults to `0`. -/
def progressOf (r : ProgressResp) : Int := r.progress.getD 0

/-- `data.get("state", "")`: a missing `state` field defaults to `""`. -/
def stateOf (r : ProgressResp) : Str := r.state.getD []

/-- The message of the `TimeoutError` raised by `wait_for_task_completion`:
`f"Task {task_id} did not complete within {timeout} seconds"`. -/
def timeoutMsg (task_id : Str) (timeout : Nat) : Str :=
  str "Task " ++ task_id ++ str " did not complete within " ++ natStr timeout
    ++ str " seconds"

/-- The message of the `RuntimeError` raised on a non-200 progress response:
`f"Failed to fetch task progress (HTTP {resp.status_code})"`. -/
def progressFetchFailedMsg (status : Nat) : Str :=
  str "Failed to fetch task progress (HTTP " ++ natStr status ++ str ")"

/-- The message of the `RuntimeError` raised on a failed download:
`f"Failed to download PDF from S3 (HTTP {r.status_code})"`. -/
def downloadFailedMsg (status : Nat) : Str :=
  str "Failed to download PDF from S3 (HTTP " ++ natStr status ++ str ")"

/-- Terminal result of one call to `wait_for_task_completion`:
`completed r` is `return data.get("result")`, `transportError s` the
`RuntimeError` raised on a non-200 progress response, `timedOut m` the
`TimeoutError` raised after the loop (carrying its message). -/
inductive PollOutcome where
  | completed : Option Str → PollOutcome
  | transportError : Nat → PollOutcome
  | timedOut : Str → PollOutcome
deriving DecidableEq, Repr

/-- `wait_for_task_completion(task_id, timeout, interval)`.  The `k`-th poll
of this call receives `responses k`; the source starts with `k = 0`,
`elapsed = 0`.  Loop body, in source order: fetch the progress endpoint;
raise on a non-200 status; read `progress` (default 0); return
`data.get("result")` once `progress >= 100`; otherwise sleep `interval`
seconds and add `interval` to `elapsed`.  The loop runs `while elapsed <
timeout` and raises `TimeoutError` after it.  The second component counts
the polls performed.  (The conjunct `0 < interval` makes the recursion
well-founded; the Python loop does not terminate when `interval = 0`, and
every theorem below assumes a positive interval, as does the source's
only call, which uses the defaults `timeout=300`, `interval=5`.) -/
def wait_for_task_completion (responses : Nat → ProgressResp) (task_id : Str)
    (timeout interval : Nat) (k elapsed : Nat) : PollOutcome × Nat :=
  if _h : elapsed < timeout ∧ 0 < interval then
    let r := responses k
    if r.status ≠ 200 then (PollOutcome.transportError r.status, k + 1)
    else if 100 ≤ progressOf r then (PollOutcome.completed r.result, k + 1)
    else wait_for_task_completion responses task_id timeout interval (k + 1)
      (elapsed + interval)
  else
    (PollOutcome.timedOut (timeoutMsg task_id timeout), k)
termination_by timeout - elapsed
decreasing_by omega

/-- `if result_url.startswith("/"): result_url = BASE_URL + result_url`. -/
def resolve_result_url (base ref : Str) : Str :=
  if ['/'].isPrefixOf ref then base ++ ref else ref

/-- An HTTP response to the S3 download request: status plus body bytes. -/
structure HttpResp where
  status : Nat
  body : List Nat

/-- The fixed download chunk size, `chunk_size=8192` (8 KiB). -/
def chunk_size : Nat := 8192

/-- `r.iter_content(chunk_size=8192)`: the body as successive chunks of
8 KiB (the last one shorter). -/
def iter_content (body : List Nat) : List (List Nat) :=
  if _h : body = [] then []
  else body.take chunk_size :: iter_content (body.drop chunk_size)
termination_by body.length
decreasing_by
  simp only [List.length_drop]
  have : body.length ≠ 0 := fun h0 => _h (List.eq_nil_of_length_eq_zero h0)
  have : 0 < chunk_size := by decide
  omega

/-- `download_pdf`, value level: on HTTP 200 or 304 the bytes written to
the destination file — the concatenation of the 8 KiB chunks of
`iter_content`, skipping empty chunks (`if chunk:`); on any other status
the `RuntimeError`, carrying the status code. -/
def download_pdf (resp : HttpResp) : Except Nat (List Nat) :=
  if resp.status = 200 ∨ resp.status = 304 then
    Except.ok ((iter_content resp.body).foldl
      (fun acc chunk => if chunk ≠ [] then acc ++ chunk else acc) [])
  else
    Except.error resp.status

/-- `download_pdf`, filesystem level: the destination file is opened (and
its contents replaced) only inside the 200/304 branch; on the error
branch the `RuntimeError` is raised before any `open`, so the file map is
returned unchanged. -/
def download_pdf_fs (resp : HttpResp) (filename : Str)
    (fs : Str → Option (List Nat)) :
    Except Nat Unit × (Str → Option (List Nat)) :=
  match download_pdf resp with
  | Except.ok bytes => (Except.ok (), fun p => if p = filename then some bytes else fs p)
  | Except.error s => (Except.error s, fs)

/-- The HTTP request `download_pdf` issues, as data. -/
structure Request where
  url : Str
  headers : List (Str × Str)
  auth : Option (Str × Str)
  stream : Bool
deriving DecidableEq, Repr

/-- The request built by `download_pdf`: `requests.get(s3_url, stream=True,
headers={"Sec-Fetch-Site": "cross-site"})` on the re-quoted URL — the
module-level `requests.get`, not the authenticated `session`, so no
credentials are attached ("Do NOT use session.auth here").
`session_auth` is the platform session's credential pair, in scope in the
source as the global `session.auth`; the definition takes it to state
that the request does not depend on it. -/
def download_request (_session_auth : Option (Str × Str)) (requote : Str → Str)
    (s3_url : Str) : Request :=
  { url := requote s3_url
    headers := [(str "Sec-Fetch-Site", str "cross-site")]
    auth := none
    stream := true }

/-- The remote responses one page's pipeline consumes.  `triggerStatus` /
`triggerTaskId` model the export-trigger response (status code and the
`content` attribute of its `<meta name="ajs-taskId">` tag, `none` when
the tag or the attribute is absent); `pollResponses k` is the response to
the `k`-th progress poll; `resultStatus` / `resultBody` the response of
the result fetch; `downloadStatus` / `downloadBody` the response of the
S3 download. -/
structure PageEnv where
  triggerStatus : Nat
  triggerTaskId : Option Str
  pollResponses : Nat → ProgressResp
  resultStatus : Nat
  resultBody : Str
  downloadStatus : Nat
  downloadBody : List Nat

/-- One element of the `results` list: the tuple
`(page_url, file, status)` the source appends (`file` is always `None` in
the source — see the claim about unrecorded successes). -/
structure ResultEntry where
  url : Str
  file : Option Str
  status : Str
deriving DecidableEq, Repr

/-- Process-wide configuration: `BASE_URL` plus the external library
functions (`urllib.parse.unquote`, Python's `str.isalnum`,
`requests.utils.requote_uri`) the pipeline applies. -/
structure Config where
  base : Str
  unq : Str → Str
  isalnum : Char → Bool
  requote : Str → Str

/-- What one iteration of the main loop does: the `results` entry it
appends (if any) and the destination path it writes (if any). -/
structure PageEffect where
  entry : Option ResultEntry
  written : Option Str

/-- One iteration of the main loop, for the page `page_url` whose
`urlparse(page_url).path` is `path`, against the responses in `env`.
Mirrors the source branch for branch:

1. extract the page id (`IndexError` → `"Missing pageId"`, `continue`);
2. trigger the export (non-200 → `f"HTTP {status}"`, `continue`);
3. extract the task id from the trigger body (absent or empty/falsy
   content → `"Missing taskId"`, `continue`);
4. poll `wait_for_task_completion(task_id)` with the default
   `timeout=300`, `interval=5` (a raised `RuntimeError` / `TimeoutError`
   is caught by the per-page `except` and its message recorded);
5. a falsy (`None` or empty) result URL → `"Missing result URL"`,
   `continue`; a root-relative one is prefixed with `BASE_URL`;
6. fetch the result URL (non-200 → `f"HTTP {status}"`, `continue`); strip
   whitespace and quotes and re-quote to obtain the S3 URL;
7. build the destination path from the sanitized last path segment and
   download (a raised `RuntimeError` is caught and its message
   recorded).

On full success the source appends nothing to `results`; the model
returns `entry = none`, `written = some filename`. -/
def processPage (cfg : Config) (page_url path : Str) (env : PageEnv) : PageEffect :=
  match extract_page_id path with
  | none => ⟨some ⟨page_url, none, str "Missing pageId"⟩, none⟩
  | some _page_id =>
    if env.triggerStatus ≠ 200 then
      ⟨some ⟨page_url, none, str "HTTP " ++ natStr env.triggerStatus⟩, none⟩
    else
      match env.triggerTaskId with
      | none => ⟨some ⟨page_url, none, str "Missing taskId"⟩, none⟩
      | some tid =>
        if tid = [] then ⟨some ⟨page_url, none, str "Missing taskId"⟩, none⟩
        else
          match wait_for_task_completion env.pollResponses tid 300 5 0 0 with
          | (PollOutcome.transportError s, _) =>
            ⟨some ⟨page_url, none, progressFetchFailedMsg s⟩, none⟩
          | (PollOutcome.timedOut m, _) => ⟨some ⟨page_url, none, m⟩, none⟩
          | (PollOutcome.completed res, _) =>
            match res with
            | none => ⟨some ⟨page_url, none, str "Missing result URL"⟩, none⟩
            | some result_url =>
              if result_url = [] then
                ⟨some ⟨page_url, none, str "Missing result URL"⟩, none⟩
              else
                let _result_url := resolve_result_url cfg.base result_url
                if env.resultStatus ≠ 200 then
                  ⟨some ⟨page_url, none, str "HTTP " ++ natStr env.resultStatus⟩, none⟩
                else
                  let _s3_url := cfg.requote (pyStrip (fun c => c = '"')
                    (pyStrip Char.isWhitespace env.resultBody))
                  let safe_title := sanitize_filename cfg.unq cfg.isalnum
                    ((pySplit ['/'] path).getLastD [])
                  let filename := str "exported/" ++ safe_title ++ str ".pdf"
                  match download_pdf ⟨env.downloadStatus, env.downloadBody⟩ with
                  | Except.ok _bytes => ⟨none, some filename⟩
                  | Except.error s =>
                    ⟨some ⟨page_url, none, downloadFailedMsg s⟩, none⟩

/-- The whole batch: the `results` list after the main loop, one input
page per list element `(page_url, path, env)`.  Failure branches append
one entry each; the success branch appends nothing, exactly as the
source does. -/
def runBatch (cfg : Config) (pages : List (Str × Str × PageEnv)) : List ResultEntry :=
  pages.filterMap (fun p => (processPage cfg p.1 p.2.1 p.2.2).entry)

/-- The destination paths the batch writes, in order. -/
def runBatchWrites (cfg : Config) (pages : List (Str × Str × PageEnv)) : List Str :=
  pages.filterMap (fun p => (processPage cfg p.1 p.2.1 p.2.2).written)

/-! ## Lemmas about `pySplit` -/

theorem pySplit_nil (sep : Str) : pySplit sep [] = [[]] := by
  rw [pySplit]

theorem pySplit_cons (sep : Str) (c : Char) (rest : Str) :
    pySplit sep (c :: rest) =
      if sep ≠ [] ∧ sep.isPrefixOf (c :: rest) then
        [] :: pySplit sep (rest.drop (sep.length - 1))
      else
        match pySplit sep rest with
        | [] => [[c]]
        | x :: xs => (c :: x) :: xs := by
  rw [pySplit]

theorem pySplit_ne_nil (sep s : Str) : pySplit sep s ≠ [] := by
  cases s with
  | nil => rw [pySplit_nil]; simp
  | cons c rest =>
    rw [pySplit_cons]
    split
    · simp
    · split <;> simp

/-- A string without an occurrence of the separator is not split. -/
theorem pySplit_no_occurrence (sep s : Str) (h : ¬ ∃ a b, s = a ++ sep ++ b) :
    pySplit sep s = [s] := by
  induction s with
  | nil => exact pySplit_nil sep
  | cons c rest ih =>
    rw [pySplit_cons]
    have hnp : ¬ (sep ≠ [] ∧ sep.isPrefixOf (c :: rest)) := by
      rintro ⟨_, hp⟩
      rw [List.isPrefixOf_iff_prefix] at hp
      obtain ⟨t, ht⟩ := hp
      exact h ⟨[], t, by simp [← ht]⟩
    rw [if_neg hnp]
    have ih' : pySplit sep rest = [rest] := by
      apply ih
      rintro ⟨a, b, hab⟩
      exact h ⟨c :: a, b, by simp [hab]⟩
    rw [ih']

/-- Splitting at the first occurrence of the separator: if `sep` occurs at
position `a.length` and at no earlier position, the first part is `a` and
the rest of the parts are those of `b`. -/
theorem pySplit_first (sep : Str) (hsep : sep ≠ []) (a b : Str)
    (hfirst : ∀ a₁ b₁, a ++ sep ++ b = a₁ ++ sep ++ b₁ → a.length ≤ a₁.length) :
    pySplit sep (a ++ sep ++ b) = a :: pySplit sep b := by
  induction a with
  | nil =>
    obtain ⟨c, tail, rfl⟩ : ∃ c tail, sep = c :: tail := by
      cases sep with
      | nil => exact absurd rfl hsep
      | cons c t => exact ⟨c, t, rfl⟩
    simp only [List.nil_append, List.cons_append]
    rw [pySplit_cons]
    rw [if_pos ⟨by simp, List.isPrefixOf_iff_prefix.mpr ⟨b, by simp⟩⟩]
    simp [List.drop_left]
  | cons c a' ih =>
    have hs : (c :: a') ++ sep ++ b = c :: (a' ++ sep ++ b) := by simp
    rw [hs, pySplit_cons]
    have hnp : ¬ (sep ≠ [] ∧ sep.isPrefixOf (c :: (a' ++ sep ++ b))) := by
      rintro ⟨_, hp⟩
      rw [List.isPrefixOf_iff_prefix] at hp
      obtain ⟨t, ht⟩ := hp
      have hle := hfirst [] t (by simpa using ht.symm)
      simp at hle
    rw [if_neg hnp]
    have ih' : pySplit sep (a' ++ sep ++ b) = a' :: pySplit sep b := by
      apply ih
      intro a₁ b₁ hab
      have hle := hfirst (c :: a₁) b₁ (by simp [hab])
      simpa using hle
    rw [ih']

/-- The first part of a split is a prefix of the input, and what follows
it is empty or starts with the separator. -/
theorem pySplit_headD (sep s : Str) :
    ∃ q, s = (pySplit sep s).headD [] ++ q ∧ (q = [] ∨ sep.isPrefixOf q) := by
  induction s with
  | nil => exact ⟨[], by simp [pySplit_nil], Or.inl rfl⟩
  | cons c rest ih =>
    rw [pySplit_cons]
    by_cases hc : sep ≠ [] ∧ sep.isPrefixOf (c :: rest)
    · rw [if_pos hc]
      exact ⟨c :: rest, by simp, Or.inr hc.2⟩
    · rw [if_neg hc]
      obtain ⟨q, hq, hcase⟩ := ih
      cases hps : pySplit sep rest with
      | nil => exact absurd hps (pySplit_ne_nil sep rest)
      | cons x xs =>
        rw [hps] at hq
        refine ⟨q, ?_, hcase⟩
        simp only [List.headD_cons] at hq ⊢
        simp [hq]

/-- The Boolean predicate `c ≠ '/'`. -/
def notSlash (c : Char) : Bool := c ≠ '/'

/-- The first part of a split on `"/"` is the leading run of
non-`'/'` characters (Python `x.split("/")[0]`). -/
theorem pySplit_slash_headD (s : Str) :
    (pySplit ['/'] s).headD [] = s.takeWhile notSlash := by
  induction s with
  | nil => simp [pySplit_nil]
  | cons c rest ih =>
    rw [pySplit_cons]
    by_cases hc : c = '/'
    · subst hc
      rw [if_pos ⟨by simp, by simp [List.isPrefixOf]⟩]
      simp [List.takeWhile_cons, notSlash]
    · have hnp : ¬ ((['/'] : Str) ≠ [] ∧ (['/'] : Str).isPrefixOf (c :: rest)) := by
        rintro ⟨_, hp⟩
        simp [List.isPrefixOf] at hp
        exact hc hp.symm
      rw [if_neg hnp]
      cases hps : pySplit ['/'] rest with
      | nil => exact absurd hps (pySplit_ne_nil ['/'] rest)
      | cons x xs =>
        rw [hps] at ih
        simp only [List.headD_cons] at ih
        simp [List.takeWhile_cons, notSlash, hc, ih]

/-- `takeWhile notSlash` ignores a suffix that is empty or starts at a
`'/'`. -/
theorem takeWhile_append_stop (p q : Str) (h : q = [] ∨ ∃ q', q = '/' :: q') :
    (p ++ q).takeWhile notSlash = p.takeWhile notSlash := by
  induction p with
  | nil =>
    rcases h with rfl | ⟨q', rfl⟩
    · simp
    · simp [List.takeWhile_cons, notSlash]
  | cons c p' ih =>
    by_cases hc : c = '/'
    · subst hc
      simp [List.takeWhile_cons, notSlash]
    · simp [List.takeWhile_cons, notSlash, hc, ih]

/-! ## The URL resolver (page-id extraction) -/

/-- A path without a `/pages/` occurrence has fewer than two parts, so the
source's `[1]` raises `IndexError` and the page is reported as
`"Missing pageId"`. -/
theorem extract_page_id_eq_none (path : Str)
    (h : ¬ ∃ a b, path = a ++ pagesSep ++ b) : extract_page_id path = none := by
  unfold extract_page_id
  rw [pySplit_no_occurrence pagesSep path h]

/-- When `/pages/` first occurs at position `a.length` and is followed by
`idp ++ "/" ++ rest` with `idp` free of `'/'`, the extractor returns
exactly `idp`. -/
theorem extract_page_id_eq_some (a idp rest : Str) (hid : '/' ∉ idp)
    (hfirst : ∀ a₁ b₁, a ++ pagesSep ++ (idp ++ '/' :: rest) = a₁ ++ pagesSep ++ b₁ →
      a.length ≤ a₁.length) :
    extract_page_id (a ++ pagesSep ++ (idp ++ '/' :: rest)) = some idp := by
  unfold extract_page_id
  rw [pySplit_first pagesSep (by decide) a (idp ++ '/' :: rest) hfirst]
  cases hps : pySplit pagesSep (idp ++ '/' :: rest) with
  | nil => exact absurd hps (pySplit_ne_nil pagesSep (idp ++ '/' :: rest))
  | cons x xs =>
    have hd := pySplit_headD pagesSep (idp ++ '/' :: rest)
    rw [hps] at hd
    obtain ⟨q, hq, hcase⟩ := hd
    simp only [List.headD_cons] at hq
    have hx : (pySplit ['/'] x).headD [] = x.takeWhile notSlash :=
      pySplit_slash_headD x
    have hstop : q = [] ∨ ∃ q', q = '/' :: q' := by
      rcases hcase with rfl | hpre
      · exact Or.inl rfl
      · right
        rw [List.isPrefixOf_iff_prefix] at hpre
        obtain ⟨t, ht⟩ := hpre
        exact ⟨str "pages/" ++ t, by rw [← ht]; rfl⟩
    have h1 : (x ++ q).takeWhile notSlash = x.takeWhile notSlash :=
      takeWhile_append_stop x q hstop
    have h2 : (idp ++ '/' :: rest).takeWhile notSlash = idp := by
      rw [takeWhile_append_stop idp ('/' :: rest) (Or.inr ⟨rest, rfl⟩)]
      rw [List.takeWhile_eq_self_iff.mpr]
      intro c hcmem
      simp only [notSlash, decide_eq_true_eq]
      intro hceq
      exact hid (hceq ▸ hcmem)
    have hfin : x.takeWhile notSlash = idp := by
      rw [← h1, ← hq, h2]
    have hgoal : (pySplit ['/'] x).headD [] = idp := hx.trans hfin
    simp only [extract_page_id]
    rw [hgoal]

/-! ## Lemmas about the task poller -/

/-- Once `elapsed` has reached `timeout` the loop exits and the
`TimeoutError` is raised: no further poll happens. -/
theorem wait_expired (responses : Nat → ProgressResp) (task_id : Str)
    (timeout interval k elapsed : Nat) (h : ¬ elapsed < timeout) :
    wait_for_task_completion responses task_id timeout interval k elapsed =
      (PollOutcome.timedOut (timeoutMsg task_id timeout), k) := by
  rw [wait_for_task_completion]
  exact dif_neg (fun hc => h hc.1)

/-- Ceiling-division step: for positive `t`, one loop iteration accounts
for one of the `⌈t / I⌉` remaining polls. -/
theorem ceil_div_step (t I : Nat) (hI : 0 < I) (ht : 0 < t) :
    (t + I - 1) / I = (t - I + I - 1) / I + 1 := by
  by_cases h : t ≤ I
  · have h1 : t - I = 0 := by omega
    rw [h1]
    have h2 : (0 + I - 1) / I = 0 := Nat.div_eq_of_lt (by omega)
    rw [h2]
    have h3 : t + I - 1 = (t - 1) + I := by omega
    rw [h3, Nat.add_div_right _ hI]
    have h4 : (t - 1) / I = 0 := Nat.div_eq_of_lt (by omega)
    omega
  · have h3 : t + I - 1 = (t - I + I - 1) + I := by omega
    rw [h3, Nat.add_div_right _ hI]

/-- While every poll returns HTTP 200 with progress below 100, the loop
runs to the timeout: it polls exactly `⌈(timeout - elapsed) / interval⌉`
more times and raises the `TimeoutError`. -/
theorem wait_timeout_count (responses : Nat → ProgressResp) (task_id : Str)
    (timeout interval : Nat) (hI : 0 < interval)
    (h200 : ∀ k, (responses k).status = 200)
    (hlt : ∀ k, progressOf (responses k) < 100) :
    ∀ n k elapsed, timeout - elapsed ≤ n →
      wait_for_task_completion responses task_id timeout interval k elapsed =
        (PollOutcome.timedOut (timeoutMsg task_id timeout),
         k + (timeout - elapsed + interval - 1) / interval) := by
  intro n
  induction n with
  | zero =>
    intro k elapsed hn
    have h0 : timeout - elapsed = 0 := by omega
    rw [wait_expired responses task_id timeout interval k elapsed (by omega)]
    have : (timeout - elapsed + interval - 1) / interval = 0 := by
      rw [h0]
      exact Nat.div_eq_of_lt (by omega)
    rw [this]
    simp
  | succ n ih =>
    intro k elapsed hn
    by_cases hlt' : elapsed < timeout
    · rw [wait_for_task_completion, dif_pos ⟨hlt', hI⟩]
      rw [if_neg (by rw [h200 k]; omega)]
      rw [if_neg (by have := hlt k; omega)]
      rw [ih (k + 1) (elapsed + interval) (by omega)]
      have harith : k + (timeout - elapsed + interval - 1) / interval =
          k + 1 + (timeout - (elapsed + interval) + interval - 1) / interval := by
        have h1 : timeout - (elapsed + interval) = (timeout - elapsed) - interval := by
          omega
        rw [h1, ceil_div_step (timeout - elapsed) interval hI (by omega)]
        omega
      rw [harith]
    · rw [wait_expired responses task_id timeout interval k elapsed hlt']
      have h0 : timeout - elapsed = 0 := by omega
      have : (timeout - elapsed + interval - 1) / interval = 0 := by
        rw [h0]
        exact Nat.div_eq_of_lt (by omega)
      rw [this]
      simp

/-- The poller raises `TimeoutError` only with its own message, naming the
task id and the timeout. -/
theorem wait_timedOut_msg (responses : Nat → ProgressResp) (task_id : Str)
    (timeout interval : Nat) :
    ∀ n k elapsed m c, timeout - elapsed ≤ n →
      wait_for_task_completion responses task_id timeout interval k elapsed =
        (PollOutcome.timedOut m, c) →
      m = timeoutMsg task_id timeout := by
  intro n
  induction n with
  | zero =>
    intro k elapsed m c hn h
    rw [wait_expired responses task_id timeout interval k elapsed (by omega)] at h
    simp at h
    exact h.1.symm
  | succ n ih =>
    intro k elapsed m c hn h
    by_cases hcond : elapsed < timeout ∧ 0 < interval
    · rw [wait_for_task_completion, dif_pos hcond] at h
      by_cases h1 : (responses k).status ≠ 200
      · rw [if_pos h1] at h
        simp at h
      · rw [if_neg h1] at h
        by_cases h2 : 100 ≤ progressOf (responses k)
        · rw [if_pos h2] at h
          simp at h
        · rw [if_neg h2] at h
          exact ih (k + 1) (elapsed + interval) m c (by omega) h
    · rw [wait_for_task_completion, dif_neg hcond] at h
      simp at h
      exact h.1.symm

/-! ## Lemmas about the downloader -/

/-- Folding the non-empty-chunk writes over `iter_content` appends exactly
the body: nothing is lost at chunk boundaries and skipping empty chunks
skips no bytes. -/
theorem iter_content_writes : ∀ n (body : List Nat), body.length ≤ n → ∀ acc,
    (iter_content body).foldl
      (fun acc chunk => if chunk ≠ [] then acc ++ chunk else acc) acc
      = acc ++ body := by
  intro n
  induction n with
  | zero =>
    intro body hb acc
    have hnil : body = [] := List.eq_nil_of_length_eq_zero (by omega)
    subst hnil
    rw [iter_content]
    simp
  | succ n ih =>
    intro body hb acc
    by_cases hbody : body = []
    · subst hbody
      rw [iter_content]
      simp
    · rw [iter_content, dif_neg hbody]
      rw [List.foldl_cons]
      have htake : body.take chunk_size ≠ [] := by
        intro hc
        rcases List.take_eq_nil_iff.mp hc with h | h
        · simp [chunk_size] at h
        · exact hbody h
      rw [if_pos htake]
      rw [ih (body.drop chunk_size)
        (by simp only [List.length_drop, chunk_size]; omega)
        (acc ++ body.take chunk_size)]
      rw [List.append_assoc, List.take_append_drop]

/-- The downloader's result as a single equation: 200/304 yields the body
byte for byte, any other status the error carrying that status. -/
theorem download_pdf_eq (resp : HttpResp) :
    download_pdf resp =
      if resp.status = 200 ∨ resp.status = 304
      then Except.ok resp.body else Except.error resp.status := by
  unfold download_pdf
  by_cases h : resp.status = 200 ∨ resp.status = 304
  · rw [if_pos h, if_pos h]
    rw [iter_content_writes resp.body.length resp.body (le_refl _) []]
    simp
  · rw [if_neg h, if_neg h]

/-! ## Claim theorems -/

/-- **C7.** For every download response with HTTP status 200 or 304, the
destination file's final contents are byte-identical to the response
body: the written bytes are the concatenation of the fixed-size 8 KiB
chunks of `iter_content`, with empty chunks skipped (`if chunk:`), and
that concatenation is the body.  For every response with any other
status, the downloader fails with the download error carrying that
status code. -/
theorem claim_downloader_contents (resp : HttpResp) :
    download_pdf resp =
      if resp.status = 200 ∨ resp.status = 304
      then Except.ok resp.body else Except.error resp.status :=
  download_pdf_eq resp

/-- Concrete check of `claim_downloader_contents`: a 200 response writes
its body (`"%PDF"` bytes), a 500 response fails carrying 500. -/
theorem claim_downloader_contents_witness :
    download_pdf ⟨200, [37, 80, 68, 70]⟩ = Except.ok [37, 80, 68, 70] ∧
    download_pdf ⟨500, [1]⟩ = Except.error 500 :=
  ⟨by simpa using claim_downloader_contents ⟨200, [37, 80, 68, 70]⟩,
   by simpa using claim_downloader_contents ⟨500, [1]⟩⟩

/-- **C9.** For every download response whose status is neither 200 nor
304, the destination file is neither created nor written: the status
check precedes the `open`, so the file map is returned unchanged and any
pre-existing file at the destination is intact. -/
theorem claim_download_error_leaves_fs (resp : HttpResp) (filename : Str)
    (fs : Str → Option (List Nat))
    (h : ¬ (resp.status = 200 ∨ resp.status = 304)) :
    (download_pdf_fs resp filename fs).1 = Except.error resp.status ∧
    (download_pdf_fs resp filename fs).2 = fs ∧
    (download_pdf_fs resp filename fs).2 filename = fs filename := by
  unfold download_pdf_fs
  rw [download_pdf_eq resp, if_neg h]
  exact ⟨rfl, rfl, rfl⟩

/-- Concrete check of `claim_download_error_leaves_fs`: a 404 download
leaves the pre-existing file at the destination untouched. -/
theorem claim_download_error_leaves_fs_witness :
    (download_pdf_fs ⟨404, [7]⟩ (str "exported/a.pdf") (fun _ => some [9])).1
        = Except.error 404 ∧
    (download_pdf_fs ⟨404, [7]⟩ (str "exported/a.pdf") (fun _ => some [9])).2
        = (fun _ => some [9]) ∧
    (download_pdf_fs ⟨404, [7]⟩ (str "exported/a.pdf") (fun _ => some [9])).2
        (str "exported/a.pdf") = some [9] :=
  claim_download_error_leaves_fs ⟨404, [7]⟩ (str "exported/a.pdf")
    (fun _ => some [9]) (by decide)

/-- **C8.** The download request never attaches the platform session's
credentials: for any two credential configurations the request built for
an object-storage URL is identical (and carries `auth = none`), and
therefore the bytes the downloader writes — a function of the response
to that request — are identical too. -/
theorem claim_download_credential_independent (requote : Str → Str)
    (s3_url : Str) (creds1 creds2 : Option (Str × Str))
    (respOf : Request → HttpResp) :
    download_request creds1 requote s3_url = download_request creds2 requote s3_url ∧
    (download_request creds1 requote s3_url).auth = none ∧
    download_pdf (respOf (download_request creds1 requote s3_url)) =
      download_pdf (respOf (download_request creds2 requote s3_url)) :=
  ⟨rfl, rfl, rfl⟩

/-- **C6.** A result reference beginning with `"/"` is resolved to the
base endpoint concatenated with the reference; an absolute
(`http://`­/`https://`) reference is used unchanged; and the spec's
example resolves as stated. -/
theorem claim_result_resolution :
    (∀ base r, resolve_result_url base ('/' :: r) = base ++ '/' :: r)
    ∧ (∀ base r, ((∃ s, r = str "http://" ++ s) ∨ (∃ s, r = str "https://" ++ s)) →
        resolve_result_url base r = r)
    ∧ resolve_result_url (str "https://h/wiki") (str "/download/x")
        = str "https://h/wiki/download/x" := by
  refine ⟨?_, ?_, by decide⟩
  · intro base r
    unfold resolve_result_url
    rw [if_pos (by simp [List.isPrefixOf])]
  · intro base r h
    unfold resolve_result_url
    have h7 : str "http://" = 'h' :: str "ttp://" := by decide
    have h8 : str "https://" = 'h' :: str "ttps://" := by decide
    rcases h with ⟨s, rfl⟩ | ⟨s, rfl⟩
    · rw [if_neg (by rw [h7]; simp [List.isPrefixOf])]
    · rw [if_neg (by rw [h8]; simp [List.isPrefixOf])]

/-- **C4.** For every timeout and positive poll interval, if every
progress response has HTTP 200 and percent below 100, the poller
terminates after exactly `⌈timeout / interval⌉` polls — in particular at
most that many, and none once the accumulated elapsed time reaches the
timeout — and fails with the timeout error naming the task id and the
timeout in seconds.  (`⌈timeout / interval⌉` presupposes a positive
interval; the source's only call uses the defaults 300 and 5.) -/
theorem claim_poller_timeout (responses : Nat → ProgressResp) (task_id : Str)
    (timeout interval : Nat) (hI : 0 < interval)
    (h200 : ∀ k, (responses k).status = 200)
    (hlt : ∀ k, progressOf (responses k) < 100) :
    wait_for_task_completion responses task_id timeout interval 0 0 =
      (PollOutcome.timedOut (timeoutMsg task_id timeout),
       (timeout + interval - 1) / interval) := by
  have h := wait_timeout_count responses task_id timeout interval hI h200 hlt
    timeout 0 0 (by omega)
  simpa using h

/-- Concrete check of `claim_poller_timeout`: timeout 12, interval 5 and
permanently 40 % progress give exactly `⌈12/5⌉ = 3` polls and the
timeout error. -/
theorem claim_poller_timeout_witness :
    wait_for_task_completion (fun _ => ⟨200, some 40, some (str "r"), none⟩)
      (str "tid") 12 5 0 0
      = (PollOutcome.timedOut (timeoutMsg (str "tid") 12), 3) := by
  have h := claim_poller_timeout (fun _ => ⟨200, some 40, some (str "r"), none⟩)
    (str "tid") 12 5 (by decide) (fun _ => rfl)
    (fun _ => by show progressOf ⟨200, some 40, some (str "r"), none⟩ < 100; decide)
  simpa using h

/-- **C5.** Per-tick behaviour of the poller on an HTTP-200 response:
a missing `progress` field defaults to 0 and a missing `state` field to
the empty string, without error; a percent at or above 100 makes the
poller return the `result` field of that same body after that single
poll, with no further sleep or poll; and a completed task with an absent
`result` is turned by the main loop into the distinct
`"Missing result URL"` failure entry, not a poller error. -/
theorem claim_poll_tick :
    (∀ r : ProgressResp, r.progress = none → progressOf r = 0)
    ∧ (∀ r : ProgressResp, r.state = none → stateOf r = [])
    ∧ (∀ (responses : Nat → ProgressResp) (task_id : Str) (timeout interval : Nat),
        0 < timeout → 0 < interval → (responses 0).status = 200 →
        100 ≤ progressOf (responses 0) →
        wait_for_task_completion responses task_id timeout interval 0 0 =
          (PollOutcome.completed (responses 0).result, 1))
    ∧ (∀ (cfg : Config) (url path : Str) (env : PageEnv) (tid pid : Str),
        env.triggerStatus = 200 → env.triggerTaskId = some tid → tid ≠ [] →
        extract_page_id path = some pid →
        (wait_for_task_completion env.pollResponses tid 300 5 0 0).1 =
          PollOutcome.completed none →
        processPage cfg url path env =
          ⟨some ⟨url, none, str "Missing result URL"⟩, none⟩) := by
  refine ⟨fun r h => by simp [progressOf, h], fun r h => by simp [stateOf, h],
    ?_, ?_⟩
  · intro responses task_id timeout interval hT hI h200 hprog
    rw [wait_for_task_completion, dif_pos ⟨hT, hI⟩]
    rw [if_neg (by rw [h200]; omega), if_pos hprog]
  · intro cfg url path env tid pid hts htid htidne hextract hpoll
    rcases hw : wait_for_task_completion env.pollResponses tid 300 5 0 0 with ⟨o, cnt⟩
    rw [hw] at hpoll
    simp only at hpoll
    subst hpoll
    unfold processPage
    rw [hextract]
    simp [hts, htid, htidne, hw]

/-- Concrete check of `claim_poll_tick`: a first-tick 100 % response with
no `result` field yields the `"Missing result URL"` entry for the page. -/
theorem claim_poll_tick_witness :
    processPage ⟨str "https://h/wiki", id, Char.isAlphanum, id⟩ (str "u")
      (str "/pages/9/X")
      ⟨200, some (str "t"), (fun _ => ⟨200, some 100, none, none⟩), 200,
        str "x", 200, [1]⟩
      = ⟨some ⟨str "u", none, str "Missing result URL"⟩, none⟩ := by
  have h := claim_poll_tick.2.2.2
    ⟨str "https://h/wiki", id, Char.isAlphanum, id⟩ (str "u") (str "/pages/9/X")
    ⟨200, some (str "t"), (fun _ => ⟨200, some 100, none, none⟩), 200,
      str "x", 200, [1]⟩
    (str "t") (str "9") rfl rfl (by decide)
    (by simp [extract_page_id, pagesSep, str, pySplit])
    (by rw [wait_for_task_completion]; norm_num [progressOf])
  exact h

/-- A list with a non-empty left part of an append is non-empty. -/
theorem append_ne_nil_left (a b : Str) (ha : a ≠ []) : a ++ b ≠ [] := by
  intro h
  rcases List.append_eq_nil.mp h with ⟨h1, _⟩
  exact ha h1

/-- The poller's timeout message is never the empty string. -/
theorem timeoutMsg_ne_nil (task_id : Str) (timeout : Nat) :
    timeoutMsg task_id timeout ≠ [] := by
  unfold timeoutMsg
  exact append_ne_nil_left _ _ (append_ne_nil_left _ _ (append_ne_nil_left _ _
    (append_ne_nil_left _ _ (by decide))))

/-- The progress-fetch failure message is never the empty string. -/
theorem progressFetchFailedMsg_ne_nil (s : Nat) :
    progressFetchFailedMsg s ≠ [] := by
  unfold progressFetchFailedMsg
  exact append_ne_nil_left _ _ (append_ne_nil_left _ _ (by decide))

/-- The download failure message is never the empty string. -/
theorem downloadFailedMsg_ne_nil (s : Nat) : downloadFailedMsg s ≠ [] := by
  unfold downloadFailedMsg
  exact append_ne_nil_left _ _ (append_ne_nil_left _ _ (by decide))

/-- **C2.** Errors of every pipeline stage are caught at the per-job
boundary: whatever the remote responses, a page that fails at any stage
contributes exactly one `results` entry, reported against its own URL
(`file = None`) and carrying a non-empty human-readable reason; and the
batch is insensitive to any page's failure — the results of a batch are
the concatenation of the results of its parts, so processing always
continues with the next page. -/
theorem claim_failure_isolation :
    (∀ cfg ps qs, runBatch cfg (ps ++ qs) = runBatch cfg ps ++ runBatch cfg qs)
    ∧ (∀ cfg url path env e, (processPage cfg url path env).entry = some e →
        e.url = url ∧ e.file = none ∧ e.status ≠ []) := by
  constructor
  · intro cfg ps qs
    simp [runBatch, List.filterMap_append]
  · intro cfg url path env e h
    unfold processPage at h
    cases hex : extract_page_id path with
    | none =>
      rw [hex] at h
      try dsimp only at h
      obtain rfl := Option.some.inj h
      refine ⟨rfl, rfl, ?_⟩
      show str "Missing pageId" ≠ []
      decide
    | some pid =>
      rw [hex] at h
      try dsimp only at h
      by_cases hts : env.triggerStatus ≠ 200
      · rw [if_pos hts] at h
        try dsimp only at h
        obtain rfl := Option.some.inj h
        refine ⟨rfl, rfl, ?_⟩
        show str "HTTP " ++ natStr env.triggerStatus ≠ []
        exact append_ne_nil_left _ _ (by decide)
      · rw [if_neg hts] at h
        try dsimp only at h
        cases htid : env.triggerTaskId with
        | none =>
          rw [htid] at h
          try dsimp only at h
          obtain rfl := Option.some.inj h
          refine ⟨rfl, rfl, ?_⟩
          show str "Missing taskId" ≠ []
          decide
        | some tid =>
          rw [htid] at h
          try dsimp only at h
          by_cases htn : tid = []
          · rw [if_pos htn] at h
            try dsimp only at h
            obtain rfl := Option.some.inj h
            refine ⟨rfl, rfl, ?_⟩
            show str "Missing taskId" ≠ []
            decide
          · rw [if_neg htn] at h
            rcases hw : wait_for_task_completion env.pollResponses tid 300 5 0 0
              with ⟨o, cnt⟩
            rw [hw] at h
            cases o with
            | transportError s =>
              try dsimp only at h
              obtain rfl := Option.some.inj h
              exact ⟨rfl, rfl, progressFetchFailedMsg_ne_nil s⟩
            | timedOut m =>
              try dsimp only at h
              obtain rfl := Option.some.inj h
              have hm := wait_timedOut_msg env.pollResponses tid 300 5 300 0 0
                m cnt (by omega) hw
              exact ⟨rfl, rfl, hm ▸ timeoutMsg_ne_nil tid 300⟩
            | completed res =>
              cases res with
              | none =>
                try dsimp only at h
                obtain rfl := Option.some.inj h
                refine ⟨rfl, rfl, ?_⟩
                show str "Missing result URL" ≠ []
                decide
              | some result_url =>
                try dsimp only at h
                by_cases hru : result_url = []
                · rw [if_pos hru] at h
                  try dsimp only at h
                  obtain rfl := Option.some.inj h
                  refine ⟨rfl, rfl, ?_⟩
                  show str "Missing result URL" ≠ []
                  decide
                · rw [if_neg hru] at h
                  try dsimp only at h
                  by_cases hrs : env.resultStatus ≠ 200
                  · rw [if_pos hrs] at h
                    try dsimp only at h
                    obtain rfl := Option.some.inj h
                    refine ⟨rfl, rfl, ?_⟩
                    show str "HTTP " ++ natStr env.resultStatus ≠ []
                    exact append_ne_nil_left _ _ (by decide)
                  · rw [if_neg hrs] at h
                    try dsimp only at h
                    cases hdl : download_pdf ⟨env.downloadStatus, env.downloadBody⟩ with
                    | ok bytes =>
                      rw [hdl] at h
                      try dsimp only at h
                      exact Option.noConfusion h
                    | error s =>
                      rw [hdl] at h
                      try dsimp only at h
                      obtain rfl := Option.some.inj h
                      exact ⟨rfl, rfl, downloadFailedMsg_ne_nil s⟩

/-- Concrete check of `claim_failure_isolation`: a failed trigger (HTTP
500) yields an entry against the page's URL with a non-empty reason. -/
theorem claim_failure_isolation_witness :
    (⟨str "u", none, str "HTTP 500"⟩ : ResultEntry).url = str "u" ∧
    (⟨str "u", none, str "HTTP 500"⟩ : ResultEntry).file = none ∧
    (⟨str "u", none, str "HTTP 500"⟩ : ResultEntry).status ≠ [] :=
  claim_failure_isolation.2 ⟨str "b", id, Char.isAlphanum, id⟩ (str "u")
    (str "/pages/1/A")
    ⟨500, none, (fun _ => ⟨200, none, none, none⟩), 200, [], 200, []⟩
    ⟨str "u", none, str "HTTP 500"⟩
    (by simp [processPage, extract_page_id, pagesSep, str, pySplit, natStr]
        decide)

/-- **C3.** The URL resolver extracts exactly the path segment following
the first `/pages/` up to the next `/`; a path with no `/pages/`
occurrence makes the extraction fail, the page is recorded as
`"Missing pageId"`, and the batch continues with the remaining pages. -/
theorem claim_resolver :
    (∀ a idp rest : Str, '/' ∉ idp →
      (∀ a₁ b₁, a ++ pagesSep ++ (idp ++ '/' :: rest) = a₁ ++ pagesSep ++ b₁ →
        a.length ≤ a₁.length) →
      extract_page_id (a ++ pagesSep ++ (idp ++ '/' :: rest)) = some idp)
    ∧ (∀ path : Str, (¬ ∃ a b, path = a ++ pagesSep ++ b) →
        extract_page_id path = none)
    ∧ (∀ (cfg : Config) (url path : Str) (env : PageEnv)
        (ps : List (Str × Str × PageEnv)),
        (¬ ∃ a b, path = a ++ pagesSep ++ b) →
        runBatch cfg ((url, path, env) :: ps) =
          ⟨url, none, str "Missing pageId"⟩ :: runBatch cfg ps) := by
  refine ⟨extract_page_id_eq_some, extract_page_id_eq_none, ?_⟩
  intro cfg url path env ps h
  have hpp : processPage cfg url path env =
      ⟨some ⟨url, none, str "Missing pageId"⟩, none⟩ := by
    unfold processPage
    rw [extract_page_id_eq_none path h]
  simp [runBatch, List.filterMap_cons, hpp]

/-- Concrete check of `claim_resolver`: the path `"/pages/123/"` yields
the page id `"123"`. -/
theorem claim_resolver_witness :
    extract_page_id ([] ++ pagesSep ++ (str "123" ++ '/' :: [])) =
      some (str "123") :=
  claim_resolver.1 [] (str "123") [] (by decide) (fun _ _ _ => Nat.zero_le _)

/-- **C10.** Every character of `sanitize_filename`'s output is
alphanumeric (in the sense of the `isalnum` predicate in use), an
underscore or a hyphen — every other character of the percent-decoded
input is replaced by `'_'`.  Since `'/'`, `'\\'` and `'.'` are not
alphanumeric, the sanitized title contains no path separator and no dot,
and the only destination path the batch ever writes is
`"exported/" ++ sanitized ++ ".pdf"`, which cannot escape the export
directory via separators or `".."` segments. -/
theorem claim_sanitize_safety :
    (∀ (unq : Str → Str) (al : Char → Bool) (name : Str) (c : Char),
      c ∈ sanitize_filename unq al name → al c = true ∨ c = '_' ∨ c = '-')
    ∧ (∀ (unq : Str → Str) (al : Char → Bool) (name : Str),
        al '/' = false → al '\\' = false → al '.' = false →
        ∀ c ∈ sanitize_filename unq al name, c ≠ '/' ∧ c ≠ '\\' ∧ c ≠ '.')
    ∧ (∀ (cfg : Config) (url path : Str) (env : PageEnv) (f : Str),
        (processPage cfg url path env).written = some f →
        f = str "exported/"
          ++ sanitize_filename cfg.unq cfg.isalnum ((pySplit ['/'] path).getLastD [])
          ++ str ".pdf") := by
  have main : ∀ (unq : Str → Str) (al : Char → Bool) (name : Str) (c : Char),
      c ∈ sanitize_filename unq al name → al c = true ∨ c = '_' ∨ c = '-' := by
    intro unq al name c hc
    unfold sanitize_filename at hc
    rw [List.mem_map] at hc
    obtain ⟨c', _, heq⟩ := hc
    by_cases hcond : (al c' || decide (c' = '_') || decide (c' = '-')) = true
    · rw [if_pos hcond] at heq
      subst heq
      simp only [Bool.or_eq_true, decide_eq_true_eq] at hcond
      tauto
    · rw [if_neg hcond] at heq
      subst heq
      right; left; rfl
  refine ⟨main, ?_, ?_⟩
  · intro unq al name h1 h2 h3 c hc
    rcases main unq al name c hc with hal | rfl | rfl
    · refine ⟨?_, ?_, ?_⟩ <;> rintro rfl
      · rw [h1] at hal; exact Bool.noConfusion hal
      · rw [h2] at hal; exact Bool.noConfusion hal
      · rw [h3] at hal; exact Bool.noConfusion hal
    · exact ⟨by decide, by decide, by decide⟩
    · exact ⟨by decide, by decide, by decide⟩
  · intro cfg url path env f h
    unfold processPage at h
    try dsimp only at h
    repeat' split at h
    all_goals first
      | exact Option.noConfusion h
      | exact (Option.some.inj h).symm

/-- Concrete check of `claim_sanitize_safety`: with ASCII `isalnum` and
identity percent-decoding, the space in `"a b"` is replaced by an
underscore — and that underscore is neither a separator nor a dot. -/
theorem claim_sanitize_safety_witness :
    sanitize_filename id Char.isAlphanum (str "a b") = str "a_b" ∧
    ('_' ≠ '/' ∧ '_' ≠ '\\' ∧ '_' ≠ '.') :=
  ⟨by decide,
   claim_sanitize_safety.2.1 id Char.isAlphanum (str "a b") rfl rfl rfl '_'
     (by decide)⟩

set_option maxRecDepth 4000 in
/-- **C1 (the code violates it).** The claim asks for exactly one
`(url, outcome)` entry per input page.  The main loop, however, appends
to `results` only on failure paths: on a fully successful page it
appends nothing (which is why the summary's `if file:` success branch
can never fire).  Evaluating the batch on a single page whose every
stage succeeds — trigger 200 with task id `abc`, first poll 100 % with
result `"/r"`, result fetch 200, download 200 — yields an empty results
list instead of one entry for that page. -/
theorem claim_one_entry_per_page_fails :
    runBatch ⟨str "https://h/wiki", id, Char.isAlphanum, id⟩
      [(str "https://h/wiki/pages/123/T",
        str "/pages/123/T",
        ⟨200, some (str "abc"), (fun _ => ⟨200, some 100, none, some (str "/r")⟩),
          200, str "\"https://s3/obj\"", 200, [37, 80, 68, 70]⟩)] = [] := by
  simp [runBatch, processPage, extract_page_id, pagesSep, str, pySplit,
    wait_for_task_completion, progressOf, download_pdf_eq,
    sanitize_filename, resolve_result_url, pyStrip]
